import Mathlib

/-!
Shallow embedding of `src/shabda/web.py` (the Shabda web routes).

The Dj engine (`dj.parse_definition`, `dj.fetch`, `dj.speak`, `dj.list`) is
an external collaborator whose code is not part of this repository's files;
every route model below is parameterised over those collaborators, so the
theorems quantify over all of their behaviours.  Floats appear in the source
only as the requested pitch, which the routes compare with `0.0` and format
to one decimal place; pitch is modelled as an integer number of tenths
(`10` stands for `1.0`, `-15` for `-1.5`), which represents every
one-decimal pitch exactly.
-/

namespace Shabda

/-- A cached sample as the routes consume it: the duck-typed object with
fields `file`, `url`, `licensename`, `username` (web.py lines 107-116). -/
structure Sample where
  file : String
  url : String
  licensename : String
  username : String
deriving DecidableEq, Repr

/-- Result of `dj.parse_definition`: an insertion-ordered mapping from word
to optional count (`None` in Python when the count was omitted). -/
abbrev Words := List (String × Option Nat)

/-- The response body of the `pack` and `speech` routes:
`{"status": ..., "definition": ...}` (web.py lines 63-68 and 190-195). -/
structure PackResponse where
  status : String
  definition : String
deriving DecidableEq, Repr

/-- Line 149/176/205: `definition = definition.replace(" ", "_")`.  A
single-character replace in Python rewrites each occurrence, i.e. it maps
every `' '` of the string to `'_'`. -/
def replaceSpaces (s : String) : String :=
  ⟨s.data.map fun c => if c = ' ' then '_' else c⟩

/-- Lines 58-61 and 185-188: `global_status = "empty"`, then for each task
result, `if status is True: global_status = "ok"`. -/
def globalStatus (results : List Bool) : String :=
  results.foldl (fun g s => if s then "ok" else g) "empty"

/-- Lines 313-318, `clean_definition`: rebuild the definition string; the
count part is kept only when `number` is truthy (neither `None` nor `0`). -/
def clean_definition (words : Words) : String :=
  String.intercalate ","
    (words.map fun wn =>
      wn.1 ++ (match wn.2 with
        | some m => if m = 0 then "" else ":" ++ toString m
        | none => ""))

/-- Lines 52-55: the per-word fetch tasks the `pack` route dispatches; a
`None` count is replaced by `1` before `fetch_one(word, number, licenses)`. -/
def packTasks (words : Words) (licenses : Option (List String)) :
    List (String × Nat × Option (List String)) :=
  words.map fun wn => (wn.1, (match wn.2 with | none => 1 | some n => n), licenses)

/-- Lines 39-68, route `/pack/<definition>`: parse (a `ValueError` becomes a
`BadRequest`, modelled as `Except.error`), dispatch one fetch task per word,
gather the boolean results and aggregate the status. -/
def pack (licenses : Option (List String))
    (fetch : String → Nat → Option (List String) → Bool)
    (parse : String → Except String Words) (definition : String) :
    Except String PackResponse :=
  match parse definition with
  | .error e => .error e
  | .ok words =>
      let results := (packTasks words licenses).map fun t => fetch t.1 t.2.1 t.2.2
      .ok ⟨globalStatus results, clean_definition words⟩

/-- The pieces of `urlparse(request.base_url)` that `pack_json` and
`speech_json` read: scheme, hostname and optional port. -/
structure UrlParts where
  scheme : String
  hostname : String
  port : Option Nat
deriving DecidableEq, Repr

/-- Lines 82-89 (and 209-216): `base = "https://" + url.hostname` - the
request scheme is deliberately not used - then `if url.port:` appends
`":" + str(url.port)` (a `0` port is falsy in Python and is skipped), then
the `SCRIPT_NAME` prefix and a trailing `"/"`. -/
def computeBase (u : UrlParts) (script_name : String) : String :=
  let base := "https://" ++ u.hostname
  let base := match u.port with
    | some p => if p ≠ 0 then base ++ ":" ++ toString p else base
    | none => base
  base ++ script_name ++ "/"

/-- Python's `needle in hay` on strings: substring containment. -/
def containsSub (hay needle : String) : Bool :=
  hay.data.tails.any fun t => needle.data.isPrefixOf t

/-- Line 229: `f"_p{pitch:+.1f}"`, the file-name suffix of a pitched speech
sample: explicit sign and exactly one decimal digit. -/
def pitchFileSuffix (t : Int) : String :=
  "_p" ++ (if t < 0 then "-" else "+") ++
    toString (t.natAbs / 10) ++ "." ++ toString (t.natAbs % 10)

/-- Line 231: `pitch_int = int(pitch) if pitch == int(pitch) else pitch`,
then rendered by `f"{word}_p{pitch_int}"`: an integral pitch prints as a
plain integer (no sign forced, no decimal), a non-integral one prints as
Python prints the one-decimal float (sign only when negative). -/
def pitchKeyStr (t : Int) : String :=
  if t % 10 = 0 then toString (t / 10)
  else (if t < 0 then "-" else "") ++
    toString (t.natAbs / 10) ++ "." ++ toString (t.natAbs % 10)

/-- Lines 228-238: the bank/sample key of the speech listing: `word` when
the pitch is zero, `f"{word}_p{pitch_int}"` otherwise. -/
def sampleKey (word : String) (t : Int) : String :=
  if t ≠ 0 then word ++ "_p" ++ pitchKeyStr t else word

/-- Lines 227-237: the pitch filter of `speech_json`.  Non-zero pitch keeps
the samples whose file contains the signed one-decimal suffix; zero pitch
keeps the samples whose file contains neither `"_p+"` nor `"_p-"`. -/
def speechFilter (t : Int) (samples : List Sample) : List Sample :=
  if t ≠ 0 then samples.filter fun s => containsSub s.file (pitchFileSuffix t)
  else samples.filter fun s =>
    !(containsSub s.file "_p+") && !(containsSub s.file "_p-")

/-- One record of the flat (non-strudel) listing (lines 107-117 and
246-251).  The three enrichment fields are written only when the `complete`
flag is set (`none` models an absent key; the speech route never sets it). -/
structure SoundData where
  url : String
  type : String
  bank : String
  n : Nat
  licensename : Option String
  original_url : Option String
  author : Option String
deriving DecidableEq, Repr

/-- The inner `for sound in samples` loop of the flat branches, carrying the
`sample_num` counter that starts at 0 for each word and increments once per
record. -/
def flatRecordsAux (complete : Bool) (bank : String) :
    Nat → List Sample → List SoundData
  | _, [] => []
  | i, s :: rest =>
      { url := s.file, type := "audio", bank := bank, n := i
        licensename := if complete then some s.licensename else none
        original_url := if complete then some s.url else none
        author := if complete then some s.username else none } ::
        flatRecordsAux complete bank (i + 1) rest

/-- A value of the strudel dictionary: `"_base"` holds a string, every other
key holds a list of file URLs. -/
inductive SVal where
  | base (s : String)
  | files (fs : List String)
deriving DecidableEq, Repr

/-- The strudel reslist: a Python dict modelled as an insertion-ordered
association list with unique keys. -/
abbrev SMap := List (String × SVal)

/-- Python `key in dict` / `dict[key]` on the modelled dict. -/
def lookupS : SMap → String → Option SVal
  | [], _ => none
  | p :: m, k => if p.1 = k then some p.2 else lookupS m k

/-- Python `dict[key] = value` on an existing key: the entry keeps its
position. -/
def updateS : SMap → String → SVal → SMap
  | [], _, _ => []
  | p :: m, k, v => if p.1 = k then (k, v) :: m else p :: updateS m k v

/-- Lines 102-105 / 241-244: `if key not in reslist: reslist[key] = []` then
`reslist[key].append(sound.file)`.  When the key is already bound to the
`"_base"` string, the `append` raises (`AttributeError` in Python). -/
def strudelAdd (m : SMap) (k f : String) : Except String SMap :=
  match lookupS m k with
  | none => .ok (m ++ [(k, SVal.files [f])])
  | some (SVal.files fs) => .ok (updateS m k (SVal.files (fs ++ [f])))
  | some (SVal.base _) => .error "AttributeError"

/-- The whole inner sample loop of a strudel branch for one key. -/
def strudelWord (m : SMap) (k : String) (files : List String) :
    Except String SMap :=
  files.foldlM (fun acc f => strudelAdd acc k f) m

/-- The two shapes `pack_json`/`speech_json` return: a flat list of records
or the strudel dictionary. -/
inductive Reslist where
  | flat (l : List SoundData)
  | grouped (m : SMap)
deriving DecidableEq, Repr

/-- Lines 71-120, route `/<definition>.json`.  The awaited `pack(definition)`
only populates the cache (abstracted into `djl`) and raises the same
`BadRequest` on a malformed definition, so a single parse check models both
parse sites.  `djl word number licenses` stands for
`dj.list(word, number, licenses=licenses)`. -/
def pack_json (strudel complete : Bool) (licenses : Option (List String))
    (u : UrlParts) (script_name : String)
    (djl : String → Option Nat → Option (List String) → List Sample)
    (parse : String → Except String Words) (definition : String) :
    Except String Reslist :=
  match parse definition with
  | .error e => .error e
  | .ok words =>
      let base := computeBase u script_name
      if strudel then
        match words.foldlM
            (fun acc wn =>
              strudelWord acc wn.1 ((djl wn.1 wn.2 licenses).map Sample.file))
            [("_base", SVal.base base)] with
        | .error e => .error e
        | .ok m => .ok (Reslist.grouped m)
      else
        .ok (Reslist.flat
          (words.foldl
            (fun acc wn => acc ++ flatRecordsAux complete wn.1 0 (djl wn.1 wn.2 licenses))
            []))

/-- Lines 123-143, route `/<definition>.zip`: parse, then write each sample
into the archive under its path with the `"samples/"` root stripped.  The
model returns the cleaned definition (the archive's name stem) and the list
of `(source path, archive name)` pairs written. -/
def pack_zip (djl : String → Option Nat → List Sample)
    (parse : String → Except String Words) (definition : String) :
    Except String (String × List (String × String)) :=
  match parse definition with
  | .error e => .error e
  | .ok words =>
      .ok (clean_definition words,
        words.foldl
          (fun acc wn =>
            acc ++ (djl wn.1 wn.2).map fun s =>
              (s.file, s.file.drop ("samples/".length)))
          [])

/-- Lines 146-166, route `/speech/<definition>.zip`: spaces become
underscores, then as `pack_zip` with the `"speech_samples/"` root and
`soundtype="tts"` (abstracted into `djl`). -/
def speech_zip (djl : String → Option Nat → List Sample)
    (parse : String → Except String Words) (definition : String) :
    Except String (String × List (String × String)) :=
  let definition := replaceSpaces definition
  match parse definition with
  | .error e => .error e
  | .ok words =>
      .ok (definition,
        words.foldl
          (fun acc wn =>
            acc ++ (djl wn.1 wn.2).map fun s =>
              (s.file, s.file.drop ("speech_samples/".length)))
          [])

/-- Lines 169-195, route `/speech/<definition>`: spaces become underscores,
parse, dispatch `speak_one(word, language, gender, pitch)` per word, gather
and aggregate the status. -/
def speech (gender language : String) (pitch : Int)
    (speak : String → String → String → Int → Bool)
    (parse : String → Except String Words) (definition : String) :
    Except String PackResponse :=
  let definition := replaceSpaces definition
  match parse definition with
  | .error e => .error e
  | .ok words =>
      let results := words.map fun wn => speak wn.1 language gender pitch
      .ok ⟨globalStatus results, clean_definition words⟩

/-- Lines 198-255, route `/speech/<definition>.json`.  The awaited
`speech(definition)` only synthesises into the cache (abstracted into
`djlTts`) and raises the same `BadRequest` on a malformed definition.
`djlTts word gender language` stands for
`dj.list(word, gender=gender, language=language, soundtype="tts")`; its
result goes through the pitch filter, and records carry the pitch-dependent
sample key. -/
def speech_json (strudel : Bool) (gender language : String) (pitch : Int)
    (u : UrlParts) (script_name : String)
    (djlTts : String → String → String → List Sample)
    (parse : String → Except String Words) (definition : String) :
    Except String Reslist :=
  let definition := replaceSpaces definition
  match parse definition with
  | .error e => .error e
  | .ok words =>
      let base := computeBase u script_name
      if strudel then
        match words.foldlM
            (fun acc wn =>
              strudelWord acc (sampleKey wn.1 pitch)
                ((speechFilter pitch (djlTts wn.1 gender language)).map Sample.file))
            [("_base", SVal.base base)] with
        | .error e => .error e
        | .ok m => .ok (Reslist.grouped m)
      else
        .ok (Reslist.flat
          (words.foldl
            (fun acc wn =>
              acc ++ flatRecordsAux false (sampleKey wn.1 pitch) 0
                (speechFilter pitch (djlTts wn.1 gender language)))
            []))

/-! Helper lemmas. -/

lemma foldl_status (rs : List Bool) : ∀ g : String,
    rs.foldl (fun g s => if s then "ok" else g) g =
      if true ∈ rs then "ok" else g := by
  induction rs with
  | nil => intro g; simp
  | cons r rs ih =>
    intro g
    cases r
    · simpa [List.foldl] using ih g
    · simp [List.foldl, ih]

lemma globalStatus_eq (rs : List Bool) :
    globalStatus rs = if true ∈ rs then "ok" else "empty" :=
  foldl_status rs "empty"

lemma foldl_append_bind {α β : Type} (g : α → List β) :
    ∀ (l : List α) (acc : List β),
      l.foldl (fun a x => a ++ g x) acc = acc ++ l.flatMap g := by
  intro l
  induction l with
  | nil => intro acc; simp
  | cons x l ih => intro acc; simp [List.foldl, ih]

lemma flatRecordsAux_eq (c : Bool) (b : String) :
    ∀ (ss : List Sample) (i : Nat),
      flatRecordsAux c b i ss = (List.enumFrom i ss).map fun is =>
        { url := is.2.file, type := "audio", bank := b, n := is.1
          licensename := if c then some is.2.licensename else none
          original_url := if c then some is.2.url else none
          author := if c then some is.2.username else none } := by
  intro ss
  induction ss with
  | nil => intro i; rfl
  | cons s ss ih => intro i; simp [flatRecordsAux, List.enumFrom, ih]

lemma flatRecordsAux_bank (c : Bool) (b : String) :
    ∀ (ss : List Sample) (i : Nat),
      (flatRecordsAux c b i ss).map SoundData.bank = List.replicate ss.length b := by
  intro ss
  induction ss with
  | nil => intro i; rfl
  | cons s ss ih => intro i; simp [flatRecordsAux, List.replicate, ih]

lemma lookupS_eq_none (m : SMap) (k : String) :
    lookupS m k = none ↔ ∀ p ∈ m, p.1 ≠ k := by
  induction m with
  | nil => simp [lookupS]
  | cons p m ih =>
    by_cases h : p.1 = k
    · simp [lookupS, h]
    · simp [lookupS, h, ih]

lemma lookupS_append (m m' : SMap) (k : String) (h : lookupS m k = none) :
    lookupS (m ++ m') k = lookupS m' k := by
  induction m with
  | nil => rfl
  | cons p m ih =>
    rw [lookupS] at h
    by_cases hp : p.1 = k
    · simp [hp] at h
    · rw [if_neg hp] at h
      simpa [lookupS, hp] using ih h

lemma updateS_append (m m' : SMap) (k : String) (v : SVal)
    (h : ∀ p ∈ m, p.1 ≠ k) :
    updateS (m ++ m') k v = m ++ updateS m' k v := by
  induction m with
  | nil => rfl
  | cons p m ih =>
    have hp : p.1 ≠ k := h p (List.mem_cons_self p m)
    simp only [List.cons_append, updateS, if_neg hp]
    show p :: updateS (m ++ m') k v = p :: (m ++ updateS m' k v)
    rw [ih fun q hq => h q (List.mem_cons_of_mem p hq)]

lemma strudelAdd_fresh (m : SMap) (k f : String) (h : lookupS m k = none) :
    strudelAdd m k f = .ok (m ++ [(k, SVal.files [f])]) := by
  simp [strudelAdd, h]

lemma strudelAdd_grow (m : SMap) (k f : String) (l : List String)
    (h : lookupS m k = none) :
    strudelAdd (m ++ [(k, SVal.files l)]) k f =
      .ok (m ++ [(k, SVal.files (l ++ [f]))]) := by
  have h1 : lookupS (m ++ [(k, SVal.files l)]) k = some (SVal.files l) := by
    rw [lookupS_append m _ k h]; simp [lookupS]
  rw [strudelAdd, h1]
  show Except.ok (updateS (m ++ [(k, SVal.files l)]) k (SVal.files (l ++ [f]))) = _
  rw [updateS_append m _ k _ ((lookupS_eq_none m k).mp h)]
  simp [updateS]

lemma strudelWord_go (k : String) :
    ∀ (fs : List String) (m : SMap) (l : List String),
      lookupS m k = none →
      List.foldlM (fun acc f => strudelAdd acc k f) (m ++ [(k, SVal.files l)]) fs =
        Except.ok (m ++ [(k, SVal.files (l ++ fs))]) := by
  intro fs
  induction fs with
  | nil => intro m l h; rw [List.append_nil]; rfl
  | cons f fs ih =>
    intro m l h
    rw [List.foldlM_cons, strudelAdd_grow m k f l h]
    show List.foldlM (fun acc f => strudelAdd acc k f)
      (m ++ [(k, SVal.files (l ++ [f]))]) fs = _
    rw [ih m (l ++ [f]) h]
    simp

lemma strudelWord_fresh (m : SMap) (k : String) (files : List String)
    (h : lookupS m k = none) (hne : files ≠ []) :
    strudelWord m k files = Except.ok (m ++ [(k, SVal.files files)]) := by
  cases files with
  | nil => exact absurd rfl hne
  | cons f fs =>
    rw [strudelWord, List.foldlM_cons, strudelAdd_fresh m k f h]
    show List.foldlM (fun acc f => strudelAdd acc k f)
      (m ++ [(k, SVal.files [f])]) fs = _
    simpa using strudelWord_go k fs m [f] h

lemma strudelWord_nil (m : SMap) (k : String) :
    strudelWord m k [] = Except.ok m := rfl

lemma strudelRun {α : Type} (key : α → String) (files : α → List String) :
    ∀ (l : List α) (m : SMap),
      (∀ x ∈ l, files x ≠ [] → lookupS m (key x) = none) →
      (l.map key).Nodup →
      List.foldlM (fun acc x => strudelWord acc (key x) (files x)) m l =
        Except.ok (m ++ (l.filter fun x => !(files x).isEmpty).map fun x =>
          (key x, SVal.files (files x))) := by
  intro l
  induction l with
  | nil => intro m _ _; simp only [List.filter_nil, List.map_nil, List.append_nil]; rfl
  | cons p ps ih =>
    intro m hfresh hnd
    rw [List.map_cons, List.nodup_cons] at hnd
    rw [List.foldlM_cons]
    by_cases hp : files p = []
    · rw [hp, strudelWord_nil]
      show List.foldlM (fun acc x => strudelWord acc (key x) (files x)) m ps = _
      rw [ih m (fun q hq hq2 => hfresh q (List.mem_cons_of_mem p hq) hq2) hnd.2]
      simp [List.filter_cons, hp]
    · rw [strudelWord_fresh m (key p) (files p)
        (hfresh p (List.mem_cons_self p ps) hp) hp]
      show List.foldlM (fun acc x => strudelWord acc (key x) (files x))
        (m ++ [(key p, SVal.files (files p))]) ps = _
      have hfresh' : ∀ q ∈ ps, files q ≠ [] →
          lookupS (m ++ [(key p, SVal.files (files p))]) (key q) = none := by
        intro q hq hq2
        rw [lookupS_append m _ (key q) (hfresh q (List.mem_cons_of_mem p hq) hq2)]
        have hne : key p ≠ key q := fun contra =>
          hnd.1 (contra ▸ List.mem_map_of_mem key hq)
        simp [lookupS, hne]
      rw [ih (m ++ [(key p, SVal.files (files p))]) hfresh' hnd.2]
      simp [List.filter_cons, hp, List.append_assoc]

lemma isEmpty_map {α β : Type} (f : α → β) (l : List α) :
    (l.map f).isEmpty = l.isEmpty := by
  cases l <;> rfl

lemma str_append_assoc (a b c : String) : a ++ b ++ c = a ++ (b ++ c) := by
  apply String.ext
  simp [String.data_append, List.append_assoc]

/-! Claim theorems. -/

/-- C1: in the speech listing, a zero requested pitch keeps exactly the
cached samples whose file path contains neither `"_p+"` nor `"_p-"`, and a
non-zero pitch keeps exactly the samples whose file path contains the
suffix `"_p"` followed by the pitch with explicit sign and one decimal
place, and no others. -/
theorem speechFilter_mem :
    ∀ (t : Int) (samples : List Sample) (s : Sample),
      s ∈ speechFilter t samples ↔
        s ∈ samples ∧
          (if t = 0 then
            containsSub s.file "_p+" = false ∧ containsSub s.file "_p-" = false
          else containsSub s.file (pitchFileSuffix t) = true) := by
  intro t samples s
  by_cases h : t = 0
  · subst h
    simp [speechFilter, List.mem_filter]
  · rw [if_neg h]
    simp [speechFilter, h, List.mem_filter]

/-- C2: the speech bank/sample key is the word itself at pitch 0 and
`word ++ "_p" ++ pitch` otherwise, the pitch rendered without forced sign or
forced decimal (integer form when integral, e.g. `fox_p1` for 1.0 and
`fox_p1.5` for 1.5), while the file-name suffix always carries an explicit
sign and one decimal place (`_p+1.0`, `_p-2.0`). -/
theorem sampleKey_spec :
    ∀ (w : String) (t : Int),
      sampleKey w 0 = w ∧
      (t ≠ 0 → sampleKey w t = w ++ "_p" ++ pitchKeyStr t) ∧
      (t % 10 = 0 → pitchKeyStr t = toString (t / 10)) ∧
      pitchFileSuffix t = "_p" ++ (if t < 0 then "-" else "+") ++
        toString (t.natAbs / 10) ++ "." ++ toString (t.natAbs % 10) ∧
      sampleKey "fox" 10 = "fox_p1" ∧ sampleKey "fox" 15 = "fox_p1.5" ∧
      pitchFileSuffix 10 = "_p+1.0" ∧ pitchFileSuffix (-20) = "_p-2.0" := by
  intro w t
  refine ⟨by simp [sampleKey], fun h => by simp [sampleKey, h],
    fun h => by simp [pitchKeyStr, h], rfl, ?_, ?_, ?_, ?_⟩ <;> rfl

/-- C3: for the `pack` and `speech` routes the response status is `"ok"`
iff at least one per-word task returned `True` and `"empty"` otherwise; the
aggregation never yields anything but these two values, so partial success
is `"ok"`, never a failure. -/
theorem status_aggregation :
    ∀ (results : List Bool),
      (globalStatus results = "ok" ↔ true ∈ results) ∧
      (globalStatus results = "empty" ↔ true ∉ results) ∧
      (globalStatus results = "ok" ∨ globalStatus results = "empty") ∧
      (∀ (licenses : Option (List String))
          (fetch : String → Nat → Option (List String) → Bool)
          (parse : String → Except String Words) (d : String) (words : Words),
        parse d = Except.ok words →
        pack licenses fetch parse d = Except.ok
          ⟨globalStatus ((packTasks words licenses).map fun tk => fetch tk.1 tk.2.1 tk.2.2),
            clean_definition words⟩) ∧
      (∀ (gender language : String) (pitch : Int)
          (speak : String → String → String → Int → Bool)
          (parse : String → Except String Words) (d : String) (words : Words),
        parse (replaceSpaces d) = Except.ok words →
        speech gender language pitch speak parse d = Except.ok
          ⟨globalStatus (words.map fun wn => speak wn.1 language gender pitch),
            clean_definition words⟩) := by
  intro results
  refine ⟨?_, ?_, ?_, ?_, ?_⟩
  · rw [globalStatus_eq]
    by_cases h : true ∈ results <;>
      simp [h, show ("empty" : String) ≠ "ok" from by decide]
  · rw [globalStatus_eq]
    by_cases h : true ∈ results <;>
      simp [h, show ("ok" : String) ≠ "empty" from by decide]
  · rw [globalStatus_eq]
    by_cases h : true ∈ results <;> simp [h]
  · intro licenses fetch parse d words h
    unfold pack
    rw [h]
  · intro gender language pitch speak parse d words h
    unfold speech
    simp only [h]

lemma map_flatMap' {α β γ : Type} (g : β → γ) (f : α → List β) :
    ∀ l : List α, (l.flatMap f).map g = l.flatMap fun x => (f x).map g := by
  intro l
  induction l with
  | nil => rfl
  | cons x l ih => simp [ih]

lemma pack_json_flat_eq (complete : Bool) (licenses : Option (List String))
    (u : UrlParts) (sn : String)
    (djl : String → Option Nat → Option (List String) → List Sample)
    (parse : String → Except String Words) (d : String) (words : Words)
    (h : parse d = Except.ok words) :
    pack_json false complete licenses u sn djl parse d =
      Except.ok (Reslist.flat (words.flatMap fun wn =>
        flatRecordsAux complete wn.1 0 (djl wn.1 wn.2 licenses))) := by
  unfold pack_json
  simp [h, foldl_append_bind]

/-- C4: in flat (non-strudel) mode every record is
`{url, type := "audio", bank := word, n := index}` with the index starting
at 0 for each word and incrementing by 1 per record of that word, and the
`licensename`, `original_url` and `author` fields are present exactly when
the `complete` flag is set. -/
theorem pack_json_flat_shape (complete : Bool) (licenses : Option (List String))
    (u : UrlParts) (sn : String)
    (djl : String → Option Nat → Option (List String) → List Sample)
    (parse : String → Except String Words) (d : String) (words : Words)
    (h : parse d = Except.ok words) :
    pack_json false complete licenses u sn djl parse d =
      Except.ok (Reslist.flat (words.flatMap fun wn =>
        (List.enumFrom 0 (djl wn.1 wn.2 licenses)).map fun is =>
          { url := is.2.file, type := "audio", bank := wn.1, n := is.1
            licensename := if complete then some is.2.licensename else none
            original_url := if complete then some is.2.url else none
            author := if complete then some is.2.username else none })) := by
  rw [pack_json_flat_eq complete licenses u sn djl parse d words h]
  simp only [flatRecordsAux_eq]

/-- Witness for C4 at a concrete input: one word, one sample, `complete`
set; the record carries all seven fields and index 0. -/
theorem pack_json_flat_shape_witness :
    pack_json false true none ⟨"http", "h", none⟩ ""
      (fun _ _ _ => [⟨"samples/d1.wav", "srcu", "cc0", "alice"⟩])
      (fun _ => Except.ok [("dog", some 1)]) "dog" =
      Except.ok (Reslist.flat
        [⟨"samples/d1.wav", "audio", "dog", 0, some "cc0", some "srcu", some "alice"⟩]) :=
  pack_json_flat_shape true none ⟨"http", "h", none⟩ ""
    (fun _ _ _ => [⟨"samples/d1.wav", "srcu", "cc0", "alice"⟩])
    (fun _ => Except.ok [("dog", some 1)]) "dog" [("dog", some 1)] rfl

/-- C7: the bank sequence of the assembled flat listing is exactly the
definition's words in insertion order, each word's records contiguous (the
assembly never depends on fetch-task completion, which the listing does not
even observe). -/
theorem pack_json_bank_order (complete : Bool) (licenses : Option (List String))
    (u : UrlParts) (sn : String)
    (djl : String → Option Nat → Option (List String) → List Sample)
    (parse : String → Except String Words) (d : String) (words : Words)
    (h : parse d = Except.ok words) :
    ∃ L, pack_json false complete licenses u sn djl parse d =
        Except.ok (Reslist.flat L) ∧
      L.map SoundData.bank =
        words.flatMap fun wn =>
          List.replicate (djl wn.1 wn.2 licenses).length wn.1 := by
  refine ⟨_, pack_json_flat_eq complete licenses u sn djl parse d words h, ?_⟩
  rw [map_flatMap']
  simp only [flatRecordsAux_bank]

/-- Witness for C7: definition `dog:2,cat` with two dog samples and one cat
sample lists banks `dog, dog, cat`. -/
theorem pack_json_bank_order_witness :
    ∃ L, pack_json false false none ⟨"http", "h", none⟩ ""
        (fun w _ _ => if w = "dog"
          then [⟨"samples/d1.wav", "u", "l", "a"⟩, ⟨"samples/d2.wav", "u", "l", "a"⟩]
          else [⟨"samples/c1.wav", "u", "l", "a"⟩])
        (fun _ => Except.ok [("dog", some 2), ("cat", none)]) "dog:2,cat" =
        Except.ok (Reslist.flat L) ∧
      L.map SoundData.bank = ["dog", "dog", "cat"] :=
  pack_json_bank_order false none ⟨"http", "h", none⟩ ""
    (fun w _ _ => if w = "dog"
      then [⟨"samples/d1.wav", "u", "l", "a"⟩, ⟨"samples/d2.wav", "u", "l", "a"⟩]
      else [⟨"samples/c1.wav", "u", "l", "a"⟩])
    (fun _ => Except.ok [("dog", some 2), ("cat", none)]) "dog:2,cat"
    [("dog", some 2), ("cat", none)] rfl

/-- C8: a word whose count the parser returned as `None` is dispatched to
`fetch_one` with count 1. -/
theorem default_count_one (words : Words) (licenses : Option (List String))
    (w : String) (h : (w, (none : Option Nat)) ∈ words) :
    (w, 1, licenses) ∈ packTasks words licenses := by
  unfold packTasks
  exact List.mem_map_of_mem _ h

/-- Witness for C8: the single word `fox` with omitted count yields the
task `(fox, 1, licenses)`. -/
theorem default_count_one_witness :
    ("fox", 1, (none : Option (List String))) ∈ packTasks [("fox", none)] none :=
  default_count_one [("fox", none)] none "fox" (List.mem_singleton.mpr rfl)

/-- Counterexample to C5 as stated: when a definition word is the literal
reserved key `"_base"` and it resolves a sample, the strudel branch appends
to the string bound at `"_base"` and the request dies with an
`AttributeError` instead of producing the claimed mapping. -/
theorem strudel_base_clash :
    pack_json true false none ⟨"https", "h", none⟩ ""
      (fun _ _ _ => [⟨"samples/f1.wav", "u", "l", "a"⟩])
      (fun _ => Except.ok [("_base", some 1)]) "d" =
      Except.error "AttributeError" := rfl

/-- C5 (amended): provided no word (pack path) or sample key (speech path)
that resolves at least one sample is the literal reserved key `"_base"`,
the strudel output is the mapping whose first entry binds `"_base"` to the
computed base URL and which binds each key that resolved at least one
sample, in definition order, to the ordered list of its samples' file URLs;
keys with no samples are absent. -/
theorem strudel_shape (complete : Bool) (licenses : Option (List String))
    (u : UrlParts) (sn : String)
    (djl : String → Option Nat → Option (List String) → List Sample)
    (gender language : String) (pitch : Int)
    (djlTts : String → String → String → List Sample)
    (parse : String → Except String Words) (d : String) (words : Words)
    (hp : parse d = Except.ok words)
    (hs : parse (replaceSpaces d) = Except.ok words)
    (hnd : (words.map fun wn => wn.1).Nodup)
    (hkey : (words.map fun wn => sampleKey wn.1 pitch).Nodup)
    (hbase : ∀ wn ∈ words, djl wn.1 wn.2 licenses ≠ [] → wn.1 ≠ "_base")
    (hkbase : ∀ wn ∈ words,
      speechFilter pitch (djlTts wn.1 gender language) ≠ [] →
      sampleKey wn.1 pitch ≠ "_base") :
    pack_json true complete licenses u sn djl parse d =
      Except.ok (Reslist.grouped (("_base", SVal.base (computeBase u sn)) ::
        (words.filter fun wn => !(djl wn.1 wn.2 licenses).isEmpty).map fun wn =>
          (wn.1, SVal.files ((djl wn.1 wn.2 licenses).map Sample.file)))) ∧
    speech_json true gender language pitch u sn djlTts parse d =
      Except.ok (Reslist.grouped (("_base", SVal.base (computeBase u sn)) ::
        (words.filter fun wn =>
            !(speechFilter pitch (djlTts wn.1 gender language)).isEmpty).map fun wn =>
          (sampleKey wn.1 pitch,
            SVal.files ((speechFilter pitch (djlTts wn.1 gender language)).map
              Sample.file)))) := by
  constructor
  · unfold pack_json
    simp only [hp]
    rw [strudelRun (fun wn => wn.1)
      (fun wn => (djl wn.1 wn.2 licenses).map Sample.file) words
      [("_base", SVal.base (computeBase u sn))] ?fresh hnd]
    case fresh =>
      intro x hx hfne
      have hsne : djl x.1 x.2 licenses ≠ [] := by
        intro hnil; exact hfne (by simp [hnil])
      have hne : ¬("_base" = x.1) := fun hc => hbase x hx hsne hc.symm
      simp [lookupS, hne]
    simp [isEmpty_map]
  · unfold speech_json
    simp only [hs]
    rw [strudelRun (fun wn => sampleKey wn.1 pitch)
      (fun wn => (speechFilter pitch (djlTts wn.1 gender language)).map Sample.file)
      words [("_base", SVal.base (computeBase u sn))] ?fresh2 hkey]
    case fresh2 =>
      intro x hx hfne
      have hsne : speechFilter pitch (djlTts x.1 gender language) ≠ [] := by
        intro hnil; exact hfne (by simp [hnil])
      have hne : ¬("_base" = sampleKey x.1 pitch) := fun hc => hkbase x hx hsne hc.symm
      simp [lookupS, hne]
    simp [isEmpty_map]

/-- Witness for the amended C5 at a concrete input: one word `fox`, one
plain sample and (speech path, neutral pitch) one neutral and one pitched
cached file; both strudel outputs bind `"_base"` and `fox`. -/
theorem strudel_shape_witness :
    pack_json true false none ⟨"https", "h", none⟩ ""
        (fun _ _ _ => [⟨"samples/f1.wav", "u", "l", "a"⟩])
        (fun _ => Except.ok [("fox", none)]) "fox" =
      Except.ok (Reslist.grouped [("_base", SVal.base "https://h/"),
        ("fox", SVal.files ["samples/f1.wav"])]) ∧
    speech_json true "f" "en-GB" 0 ⟨"https", "h", none⟩ ""
        (fun w _ _ => [⟨"speech_samples/" ++ w ++ ".ogg", "u", "l", "a"⟩,
          ⟨"speech_samples/" ++ w ++ "_p+1.0.ogg", "u", "l", "a"⟩])
        (fun _ => Except.ok [("fox", none)]) "fox" =
      Except.ok (Reslist.grouped [("_base", SVal.base "https://h/"),
        ("fox", SVal.files ["speech_samples/fox.ogg"])]) :=
  strudel_shape false none ⟨"https", "h", none⟩ ""
    (fun _ _ _ => [⟨"samples/f1.wav", "u", "l", "a"⟩]) "f" "en-GB" 0
    (fun w _ _ => [⟨"speech_samples/" ++ w ++ ".ogg", "u", "l", "a"⟩,
      ⟨"speech_samples/" ++ w ++ "_p+1.0.ogg", "u", "l", "a"⟩])
    (fun _ => Except.ok [("fox", none)]) "fox" [("fox", none)]
    rfl rfl (by decide) (by decide) (by decide) (by decide)

/-- C6: a parse failure (`ValueError` from `dj.parse_definition`) is
surfaced as the `BadRequest` error by every route that parses a definition,
and it propagates before any per-word task is dispatched: the result is the
same error whatever the fetch/speech/list collaborators would do. -/
theorem parse_error_aborts (parse : String → Except String Words) (d : String)
    (e e' : String)
    (hp : parse d = Except.error e)
    (hs : parse (replaceSpaces d) = Except.error e') :
    (∀ licenses fetch, pack licenses fetch parse d = Except.error e) ∧
    (∀ strudel complete licenses u sn djl,
      pack_json strudel complete licenses u sn djl parse d = Except.error e) ∧
    (∀ djl, pack_zip djl parse d = Except.error e) ∧
    (∀ gender language pitch speak,
      speech gender language pitch speak parse d = Except.error e') ∧
    (∀ strudel gender language pitch u sn djlTts,
      speech_json strudel gender language pitch u sn djlTts parse d = Except.error e') ∧
    (∀ djlTts, speech_zip djlTts parse d = Except.error e') := by
  refine ⟨?_, ?_, ?_, ?_, ?_, ?_⟩
  · intro licenses fetch; unfold pack; rw [hp]
  · intro strudel complete licenses u sn djl; unfold pack_json; rw [hp]
  · intro djl; unfold pack_zip; rw [hp]
  · intro gender language pitch speak; unfold speech; simp [hs]
  · intro strudel gender language pitch u sn djlTts; unfold speech_json; simp [hs]
  · intro djlTts; unfold speech_zip; simp [hs]

/-- Witness for C6: a parser that rejects everything makes the pack route
return its error for any fetch collaborator. -/
theorem parse_error_aborts_witness :
    pack none (fun _ _ _ => true) (fun _ => Except.error "bad") "a b" =
      Except.error "bad" :=
  (parse_error_aborts (fun _ => Except.error "bad") "a b" "bad" "bad" rfl rfl).1
    none (fun _ _ _ => true)

/-- C9: every speech route hands the parser the definition with each space
replaced by an underscore (so the parser never sees a space), while every
plain pack route hands the parser the definition verbatim.  The
parser argument `fun s => Except.error s` reports exactly the string it was
given. -/
theorem space_normalization :
    ∀ (d gender language : String) (pitch : Int)
      (speak : String → String → String → Int → Bool)
      (licenses : Option (List String))
      (fetch : String → Nat → Option (List String) → Bool)
      (strudel complete : Bool) (u : UrlParts) (sn : String)
      (djl : String → Option Nat → Option (List String) → List Sample)
      (djlz : String → Option Nat → List Sample)
      (djlTts : String → String → String → List Sample),
      speech gender language pitch speak (fun s => Except.error s) d =
        Except.error (replaceSpaces d) ∧
      speech_json strudel gender language pitch u sn djlTts
        (fun s => Except.error s) d = Except.error (replaceSpaces d) ∧
      speech_zip djlz (fun s => Except.error s) d =
        Except.error (replaceSpaces d) ∧
      pack licenses fetch (fun s => Except.error s) d = Except.error d ∧
      pack_json strudel complete licenses u sn djl (fun s => Except.error s) d =
        Except.error d ∧
      pack_zip djlz (fun s => Except.error s) d = Except.error d ∧
      (replaceSpaces d).data = d.data.map (fun c => if c = ' ' then '_' else c) ∧
      (∀ c ∈ (replaceSpaces d).data, c ≠ ' ') := by
  intro d gender language pitch speak licenses fetch strudel complete u sn djl djlz djlTts
  refine ⟨rfl, rfl, rfl, rfl, rfl, rfl, rfl, ?_⟩
  intro c hc
  have hc2 : c ∈ d.data.map (fun c => if c = ' ' then '_' else c) := hc
  obtain ⟨c', _, hc'⟩ := List.mem_map.mp hc2
  intro hsp
  rw [hsp] at hc'
  by_cases h' : c' = ' '
  · rw [if_pos h'] at hc'; exact absurd hc' (by decide)
  · rw [if_neg h'] at hc'; exact h' hc'

/-- Counterexample to C10 as stated: a present port equal to `0` is falsy
in Python (`if url.port:`), so it is omitted from the base URL. -/
theorem compute_base_port_zero :
    computeBase ⟨"http", "example.org", some 0⟩ "" = "https://example.org/" ∧
    ("https://example.org/" : String) ≠ "https://example.org:0/" :=
  ⟨rfl, by decide⟩

/-- C10 (amended): the base URL always starts with the literal scheme
`"https://"` and depends only on the hostname, the port and the
`SCRIPT_NAME` prefix - never on the incoming request's scheme; it is
hostname, then `":" ++ port` when the port is present and non-zero (a port
of 0 is falsy in Python and is skipped, as is an absent port), then the
`SCRIPT_NAME` value and a trailing `"/"`. -/
theorem compute_base_spec :
    ∀ (u : UrlParts) (sn : String),
      (∃ rest, computeBase u sn = "https://" ++ rest) ∧
      (∀ u' : UrlParts, u'.hostname = u.hostname → u'.port = u.port →
        computeBase u' sn = computeBase u sn) ∧
      (u.port = none → computeBase u sn = "https://" ++ u.hostname ++ sn ++ "/") ∧
      (∀ p, u.port = some p → p ≠ 0 →
        computeBase u sn =
          "https://" ++ u.hostname ++ ":" ++ toString p ++ sn ++ "/") ∧
      (u.port = some 0 → computeBase u sn = "https://" ++ u.hostname ++ sn ++ "/") := by
  intro u sn
  refine ⟨?_, ?_, ?_, ?_, ?_⟩
  · cases hport : u.port with
    | none =>
      exact ⟨u.hostname ++ (sn ++ "/"), by
        unfold computeBase; rw [hport, str_append_assoc, str_append_assoc]⟩
    | some p =>
      by_cases hp : p = 0
      · exact ⟨u.hostname ++ (sn ++ "/"), by
          simp [computeBase, hport, hp, str_append_assoc]⟩
      · exact ⟨u.hostname ++ (":" ++ (toString p ++ (sn ++ "/"))), by
          simp [computeBase, hport, hp, str_append_assoc]⟩
  · intro u' h1 h2; unfold computeBase; rw [h1, h2]
  · intro h; unfold computeBase; rw [h]
  · intro p h hpn
    unfold computeBase
    rw [h]
    show (if p ≠ 0 then "https://" ++ u.hostname ++ ":" ++ toString p
      else "https://" ++ u.hostname) ++ sn ++ "/" = _
    rw [if_pos hpn]
  · intro h
    unfold computeBase
    rw [h]
    show (if (0 : Nat) ≠ 0 then "https://" ++ u.hostname ++ ":" ++ toString (0 : Nat)
      else "https://" ++ u.hostname) ++ sn ++ "/" = _
    rw [if_neg (by decide)]

end Shabda
